import Mathlib

/-
Verification of the plugin lifecycle manager and capability registry of the
gemini-cli-ecosystem repository (plugin-manager.ts, plugin-registry.ts,
plugin-installer.ts, plugin-interface.ts), via a shallow embedding: the
TypeScript classes' fields become explicit state records, JS `Map`s become
association lists in insertion order, JS `Set`s become duplicate-free lists in
insertion order, and thrown/caught exceptions become explicit `Except` values
or state-carrying error options.
-/

/-! ## JS Map / Set models -/

/-- `Map.get`: value at the first (under Map semantics, only) matching key. -/
def lookupA {α : Type} : List (String × α) → String → Option α
  | [], _ => none
  | (k', v) :: rest, k => if k' = k then some v else lookupA rest k

/-- `Map.set`: overwrite in place when the key exists, else append. -/
def setA {α : Type} : List (String × α) → String → α → List (String × α)
  | [], k, v => [(k, v)]
  | (k', v') :: rest, k, v =>
    if k' = k then (k, v) :: rest else (k', v') :: setA rest k v

/-- `Map.delete`: remove the entries with the given key. -/
def deleteA {α : Type} : List (String × α) → String → List (String × α)
  | [], _ => []
  | (k', v') :: rest, k =>
    if k' = k then deleteA rest k else (k', v') :: deleteA rest k

/-- `Set.has`. -/
def containsS : List String → String → Bool
  | [], _ => false
  | x :: rest, n => if x = n then true else containsS rest n

/-- `Set.add`: append when absent. -/
def addS (l : List String) (n : String) : List String :=
  if containsS l n then l else l ++ [n]

/-- `Set.delete`. -/
def deleteS : List String → String → List String
  | [], _ => []
  | x :: rest, n => if x = n then deleteS rest n else x :: deleteS rest n

/-- `new Set(array)`: deduplicate keeping first occurrences. -/
def setOfList (l : List String) : List String :=
  l.foldl (fun acc x => if containsS acc x then acc else acc ++ [x]) []

/-! ## JS `String.split` on a single-character separator -/

/-- Split a character list on a separator character, JS `split` semantics
(the empty list yields one empty fragment). -/
def splitCharsOn (sep : Char) : List Char → List (List Char)
  | [] => [[]]
  | c :: rest =>
    let r := splitCharsOn sep rest
    if c = sep then [] :: r
    else
      match r with
      | [] => [[c]]
      | h :: t => (c :: h) :: t

/-- JS `s.split(':')`. -/
def splitColon (s : String) : List String :=
  (splitCharsOn ':' s.data).map String.mk

/-- No character of the list is a colon. -/
def noColonChars : List Char → Bool
  | [] => true
  | c :: rest => if c = ':' then false else noColonChars rest

/-- The string contains no colon character. -/
def noColon (s : String) : Bool := noColonChars s.data

/-! ## Capability data (plugin-interface.ts) -/

structure PluginCommand where
  name : String
  description : String
  usage : Option String := none
  examples : Option (List String) := none
  deriving Repr, DecidableEq

structure PluginTool where
  name : String
  displayName : String
  description : String
  deriving Repr, DecidableEq

structure PluginTheme where
  name : String
  displayName : String
  description : String
  colors : List (String × String) := []
  deriving Repr, DecidableEq

structure PluginExtension where
  name : String
  type : String
  config : List (String × String) := []
  deriving Repr, DecidableEq

/-! ## PluginRegistry (plugin-registry.ts) -/

structure PluginRegistry where
  commands : List (String × PluginCommand) := []
  tools : List (String × PluginTool) := []
  themes : List (String × PluginTheme) := []
  extensions : List (String × PluginExtension) := []
  /-- `capability -> plugin`; keys are `kind:name` strings. -/
  pluginOwnership : List (String × String) := []
  deriving Repr, DecidableEq

/-- `getCommandRegistry().registerCommand`: stores the command and records the
ownership entry with the literal owner string `'unknown'`. -/
def registerCommand (r : PluginRegistry) (c : PluginCommand) : PluginRegistry :=
  { r with commands := setA r.commands c.name c,
           pluginOwnership := setA r.pluginOwnership ("command:" ++ c.name) "unknown" }

/-- `getCommandRegistry().unregisterCommand`. -/
def unregisterCommand (r : PluginRegistry) (n : String) : PluginRegistry :=
  { r with commands := deleteA r.commands n,
           pluginOwnership := deleteA r.pluginOwnership ("command:" ++ n) }

/-- `getToolRegistry().registerTool`. -/
def registerTool (r : PluginRegistry) (t : PluginTool) : PluginRegistry :=
  { r with tools := setA r.tools t.name t,
           pluginOwnership := setA r.pluginOwnership ("tool:" ++ t.name) "unknown" }

/-- `getToolRegistry().unregisterTool`. -/
def unregisterTool (r : PluginRegistry) (n : String) : PluginRegistry :=
  { r with tools := deleteA r.tools n,
           pluginOwnership := deleteA r.pluginOwnership ("tool:" ++ n) }

/-- `getThemeRegistry().registerTheme`. -/
def registerTheme (r : PluginRegistry) (t : PluginTheme) : PluginRegistry :=
  { r with themes := setA r.themes t.name t,
           pluginOwnership := setA r.pluginOwnership ("theme:" ++ t.name) "unknown" }

/-- `getThemeRegistry().unregisterTheme`. -/
def unregisterTheme (r : PluginRegistry) (n : String) : PluginRegistry :=
  { r with themes := deleteA r.themes n,
           pluginOwnership := deleteA r.pluginOwnership ("theme:" ++ n) }

/-- `getExtensionRegistry().registerExtension`. -/
def registerExtension (r : PluginRegistry) (e : PluginExtension) : PluginRegistry :=
  { r with extensions := setA r.extensions e.name e,
           pluginOwnership := setA r.pluginOwnership ("extension:" ++ e.name) "unknown" }

/-- `getExtensionRegistry().unregisterExtension`. -/
def unregisterExtension (r : PluginRegistry) (n : String) : PluginRegistry :=
  { r with extensions := deleteA r.extensions n,
           pluginOwnership := deleteA r.pluginOwnership ("extension:" ++ n) }

/-- The capability-map deletion performed for one ownership key inside
`unregisterPlugin`: `const [type, name] = capability.split(':')` followed by the
`switch` on `type`. A missing second fragment (`name === undefined`) makes every
`delete` a no-op. -/
def unregDeleteCapability (acc : PluginRegistry) (capability : String) : PluginRegistry :=
  match splitColon capability with
  | ty :: nm :: _ =>
    if ty = "command" then { acc with commands := deleteA acc.commands nm }
    else if ty = "tool" then { acc with tools := deleteA acc.tools nm }
    else if ty = "theme" then { acc with themes := deleteA acc.themes nm }
    else if ty = "extension" then { acc with extensions := deleteA acc.extensions nm }
    else acc
  | _ => acc

/-- One iteration of the `unregisterPlugin` loop over the ownership entries. -/
def unregStep (pluginName : String) (acc : PluginRegistry) (kv : String × String) :
    PluginRegistry :=
  if kv.2 = pluginName then
    let acc2 := unregDeleteCapability acc kv.1
    { acc2 with pluginOwnership := deleteA acc2.pluginOwnership kv.1 }
  else acc

/-- `PluginRegistry.unregisterPlugin` (the spec's `revokeAll`): iterates the
ownership entries, and for every entry whose owner equals `pluginName` deletes
the corresponding capability and the ownership entry. JS iterates the live map
but only ever deletes the entry currently visited, so folding over the snapshot
is equivalent. -/
def unregisterPlugin (r : PluginRegistry) (pluginName : String) : PluginRegistry :=
  r.pluginOwnership.foldl (unregStep pluginName) r

structure PluginCapabilities where
  commands : List PluginCommand := []
  tools : List PluginTool := []
  themes : List PluginTheme := []
  extensions : List PluginExtension := []
  deriving Repr, DecidableEq

/-- `PluginRegistry.getPluginCapabilities` (the spec's `capabilitiesOf`):
collects, per kind, the capabilities whose ownership entry names `pluginName`. -/
def getPluginCapabilities (r : PluginRegistry) (pluginName : String) :
    PluginCapabilities :=
  r.pluginOwnership.foldl (fun acc kv =>
    if kv.2 = pluginName then
      match splitColon kv.1 with
      | ty :: nm :: _ =>
        if ty = "command" then
          match lookupA r.commands nm with
          | some c => { acc with commands := acc.commands ++ [c] }
          | none => acc
        else if ty = "tool" then
          match lookupA r.tools nm with
          | some t => { acc with tools := acc.tools ++ [t] }
          | none => acc
        else if ty = "theme" then
          match lookupA r.themes nm with
          | some t => { acc with themes := acc.themes ++ [t] }
          | none => acc
        else if ty = "extension" then
          match lookupA r.extensions nm with
          | some e => { acc with extensions := acc.extensions ++ [e] }
          | none => acc
        else acc
      | _ => acc
    else acc) {}

/-! ## Plugin metadata, hooks and instances (plugin-interface.ts) -/

/-- `PluginMetadata` as parsed from `package.json`. Fields the JSON may omit
are `Option`s; `compatibility` is an object, so only its presence matters for
JS truthiness. -/
structure PluginMetadata where
  name : Option String := none
  version : Option String := none
  description : Option String := none
  author : Option String := none
  type : Option String := none
  entryPoint : Option String := none
  compatibility : Bool := false
  deriving Repr, DecidableEq

/-- JS truthiness of an optional string field: present and non-empty. -/
def truthyS : Option String → Bool
  | none => false
  | some s => !(s = "")

/-- `PluginManager.validatePluginMetadata`: every required field truthy. -/
def validatePluginMetadata (m : PluginMetadata) : Bool :=
  truthyS m.name && truthyS m.version && truthyS m.description &&
  truthyS m.author && truthyS m.type && truthyS m.entryPoint && m.compatibility

/-- Outcome of invoking a plugin-supplied lifecycle hook. -/
inductive HookResult where
  | ok
  | throws (msg : String)
  deriving Repr, DecidableEq

/-- An action a registration hook performs through its `CommandRegistry`
handle. -/
inductive CommandRegAction where
  | register (c : PluginCommand)
  | unregister (n : String)
  deriving Repr, DecidableEq

inductive ToolRegAction where
  | register (t : PluginTool)
  | unregister (n : String)
  deriving Repr, DecidableEq

inductive ThemeRegAction where
  | register (t : PluginTheme)
  | unregister (n : String)
  deriving Repr, DecidableEq

inductive ExtensionRegAction where
  | register (e : PluginExtension)
  | unregister (n : String)
  deriving Repr, DecidableEq

/-- A registration hook's behaviour: the registry actions it performs in order,
then whether it returns normally or throws. -/
structure RegHook (A : Type) where
  actions : List A
  outcome : HookResult
  deriving Repr, DecidableEq

/-- A loaded `GeminiPlugin` instance. Optional hooks are `none` when the plugin
does not implement them; their behaviour is data so that states stay
comparable. -/
structure GeminiPlugin where
  metadata : Option PluginMetadata
  onUninstall : Option HookResult := none
  onEnable : Option HookResult := none
  onDisable : Option HookResult := none
  registerCommands : Option (RegHook CommandRegAction) := none
  registerTools : Option (RegHook ToolRegAction) := none
  registerThemes : Option (RegHook ThemeRegAction) := none
  registerExtensions : Option (RegHook ExtensionRegAction) := none
  deriving Repr, DecidableEq

/-- A per-plugin `config.json` object (arbitrary JSON flattened to key/value
pairs; only its identity matters to the manager). -/
structure PluginConfig where
  entries : List (String × String) := []
  deriving Repr, DecidableEq

/-- `PluginContext` (logger omitted: pure output). -/
structure PluginContext where
  workspaceRoot : String
  pluginRoot : String
  config : PluginConfig
  deriving Repr, DecidableEq

/-- The plugin class exported by the entry module: `new PluginClass(context)`. -/
def PluginClass : Type := PluginContext → GeminiPlugin

/-- `PluginInstallResult` (plugin-interface.ts); `warnings` omitted (never
produced by this code). -/
structure PluginInstallResult where
  success : Bool
  plugin : Option GeminiPlugin := none
  error : Option String := none
  deriving Repr, DecidableEq

/-! ## Filesystem and module views -/

/-- The state of `enabled.json` as seen by `JSON.parse`:
absent, unparsable (the parse throws with a message), or parsed with the
`plugins` field either a string array or absent/falsy. -/
inductive EnabledFileState where
  | missing
  | unparsable (msg : String)
  | parsed (plugins : Option (List String))
  deriving Repr, DecidableEq

/-- The filesystem state relevant to the enabled-set: the file's contents and
whether the next `fs.writeFileSync` throws (with which message). -/
structure FSState where
  enabledFile : EnabledFileState
  writeError : Option String := none
  deriving Repr, DecidableEq

/-- The on-disk and module state of one plugin directory as `loadPlugin`
observes it: directory existence, `package.json` (absent, unparsable, or
parsed), entry-point existence, the dynamic import (throws or yields the
module's exports by name), and `config.json`. -/
structure PluginDisk where
  dirExists : Bool
  packageJson : Option (Except String PluginMetadata)
  entryPointExists : Bool
  importResult : Except String (List (String × PluginClass))
  configJson : Option (Except String PluginConfig)

/-! ## PluginManager state (plugin-manager.ts) -/

structure ManagerState where
  pluginRoot : String
  plugins : List (String × GeminiPlugin) := []
  pluginContexts : List (String × PluginContext) := []
  registry : PluginRegistry := {}
  enabledPlugins : List String := []
  deriving Repr, DecidableEq

def pathJoin (a b : String) : String := a ++ "/" ++ b

/-- `path.dirname`: drop the last path component. -/
def pathDirname (p : String) : String :=
  let parts := p.splitOn "/"
  if parts.length ≤ 1 then "." else String.intercalate "/" parts.dropLast

/-- `PluginManager.loadEnabledPlugins`: reads `enabled.json` into the in-memory
set. A missing file leaves the set as initialized (`current`); a parse failure
is caught, logged, and yields the empty set; the `Except` result records that
no exception escapes to the caller. -/
def loadEnabledPlugins (fsS : FSState) (current : List String) :
    Except String (List String) :=
  match fsS.enabledFile with
  | .missing => .ok current
  | .unparsable _ => .ok []
  | .parsed ps => .ok (setOfList (ps.getD []))

/-- `PluginManager.saveEnabledPlugins`: `fs.writeFileSync` with no catch — a
write failure propagates as `Except.error`. -/
def saveEnabledPlugins (fsS : FSState) (enabled : List String) :
    Except String FSState :=
  match fsS.writeError with
  | some m => .error m
  | none => .ok { fsS with enabledFile := .parsed (some enabled) }

/-- `PluginManager.loadPluginConfig`: missing or unparsable `config.json`
yields the empty object (parse failures are caught inside). -/
def loadPluginConfig (disk : PluginDisk) : PluginConfig :=
  match disk.configJson with
  | none => {}
  | some (.error _) => {}
  | some (.ok c) => c

/-- `pluginModule.default || pluginModule[metadata.name] || pluginModule.Plugin`. -/
def resolvePluginClass (exports : List (String × PluginClass))
    (metadataName : Option String) : Option PluginClass :=
  (lookupA exports "default").orElse fun _ =>
    (match metadataName with
     | some n => lookupA exports n
     | none => none).orElse fun _ =>
      lookupA exports "Plugin"

/-- The interface check after instantiation:
`!plugin.metadata || plugin.metadata.name !== metadata.name` fails the load. -/
def interfaceOk (p : GeminiPlugin) (md : PluginMetadata) : Bool :=
  match p.metadata with
  | none => false
  | some pm => pm.name = md.name

/-- Run one registration hook against the registry, carrying a pending
exception: once a hook has thrown, later hooks are skipped, but the registry
mutations the throwing hook already made persist. -/
def runRegHook {A : Type} (apply : PluginRegistry → A → PluginRegistry)
    (h : Option (RegHook A)) (st : PluginRegistry × Option String) :
    PluginRegistry × Option String :=
  match st.2 with
  | some _ => st
  | none =>
    match h with
    | none => st
    | some hk =>
      let r2 := hk.actions.foldl apply st.1
      match hk.outcome with
      | .ok => (r2, none)
      | .throws m => (r2, some m)

def applyCommandAction (r : PluginRegistry) : CommandRegAction → PluginRegistry
  | .register c => registerCommand r c
  | .unregister n => unregisterCommand r n

def applyToolAction (r : PluginRegistry) : ToolRegAction → PluginRegistry
  | .register t => registerTool r t
  | .unregister n => unregisterTool r n

def applyThemeAction (r : PluginRegistry) : ThemeRegAction → PluginRegistry
  | .register t => registerTheme r t
  | .unregister n => unregisterTheme r n

def applyExtensionAction (r : PluginRegistry) : ExtensionRegAction → PluginRegistry
  | .register e => registerExtension r e
  | .unregister n => unregisterExtension r n

/-- `PluginManager.registerPluginCapabilities`: invoke the four optional
registration hooks in order; the second component is the message of the first
exception, if any (it aborts the remaining hooks but keeps prior mutations). -/
def registerPluginCapabilities (r : PluginRegistry) (p : GeminiPlugin) :
    PluginRegistry × Option String :=
  runRegHook applyExtensionAction p.registerExtensions
    (runRegHook applyThemeAction p.registerThemes
      (runRegHook applyToolAction p.registerTools
        (runRegHook applyCommandAction p.registerCommands (r, none))))

/-- The `PluginContext` built inside `loadPlugin`. -/
def mkPluginContext (s : ManagerState) (disk : PluginDisk) (pluginName : String) :
    PluginContext :=
  { workspaceRoot := pathDirname s.pluginRoot,
    pluginRoot := pathJoin s.pluginRoot pluginName,
    config := loadPluginConfig disk }

/-- The result the catch block of `loadPlugin` builds from a thrown error. -/
def loadFailure (pluginName msg : String) : PluginInstallResult :=
  { success := false,
    error := some ("Failed to load plugin " ++ pluginName ++ ": " ++ msg) }

/-- `PluginManager.loadPlugin`: validates the directory, metadata and entry
point, resolves the plugin class, instantiates it, stores the instance and its
context, registers capabilities, and invokes `onEnable` when the plugin is in
the enabled set. Exceptions thrown after the instance maps were mutated are
caught and converted to a failed result, with all mutations so far kept. -/
def loadPlugin (disk : PluginDisk) (s : ManagerState) (pluginName : String) :
    PluginInstallResult × ManagerState :=
  if !disk.dirExists then
    ({ success := false,
       error := some ("Plugin " ++ pluginName ++ " not found") }, s)
  else
    match disk.packageJson with
    | none =>
      ({ success := false,
         error := some ("Plugin " ++ pluginName ++ " missing package.json") }, s)
    | some (.error m) => (loadFailure pluginName m, s)
    | some (.ok md) =>
      if !validatePluginMetadata md then
        ({ success := false,
           error := some ("Plugin " ++ pluginName ++ " has invalid metadata") }, s)
      else
        let entryPoint := pathJoin (pathJoin s.pluginRoot pluginName) (md.entryPoint.getD "")
        if !disk.entryPointExists then
          ({ success := false,
             error := some ("Plugin " ++ pluginName ++ " entry point not found: "
               ++ entryPoint) }, s)
        else
          match disk.importResult with
          | .error m => (loadFailure pluginName m, s)
          | .ok exports =>
            match resolvePluginClass exports md.name with
            | none =>
              ({ success := false,
                 error := some ("Plugin " ++ pluginName
                   ++ " does not export a valid plugin class") }, s)
            | some cls =>
              let context := mkPluginContext s disk pluginName
              let plugin := cls context
              if !interfaceOk plugin md then
                ({ success := false,
                   error := some ("Plugin " ++ pluginName
                     ++ " does not implement required interface") }, s)
              else
                let s1 := { s with
                  plugins := setA s.plugins pluginName plugin,
                  pluginContexts := setA s.pluginContexts pluginName context }
                let rr := registerPluginCapabilities s1.registry plugin
                let s2 := { s1 with registry := rr.1 }
                match rr.2 with
                | some m => (loadFailure pluginName m, s2)
                | none =>
                  if containsS s2.enabledPlugins pluginName then
                    match plugin.onEnable with
                    | some (.throws m) => (loadFailure pluginName m, s2)
                    | _ => ({ success := true, plugin := some plugin }, s2)
                  else ({ success := true, plugin := some plugin }, s2)

/-- `PluginManager.installPlugin`: delegate to the installer, and only when
`result.success && result.plugin` are both truthy attempt `loadPlugin`. The
installer's own result is returned either way. The last component is a ghost
flag recording whether `loadPlugin` was invoked. -/
def installPlugin (installerResult : PluginInstallResult) (disk : PluginDisk)
    (s : ManagerState) (pluginName : String) :
    PluginInstallResult × ManagerState × Bool :=
  if installerResult.success && installerResult.plugin.isSome then
    (installerResult, (loadPlugin disk s pluginName).2, true)
  else
    (installerResult, s, false)

/-- Success result shape produced by every success path of
`PluginInstaller.install` (both `createMockPlugin` and `validateInstallation`
return a bare `{ success: true }` with no `plugin` field). -/
def installerSuccessResult : PluginInstallResult := { success := true }

/-- Result of `uninstallPlugin`, with ghost flags recording whether the
`onUninstall` hook and the installer's filesystem removal were invoked. -/
structure UninstallResult where
  ret : Bool
  state : ManagerState
  fsS : FSState
  hookInvoked : Bool
  installerInvoked : Bool
  deriving Repr, DecidableEq

/-- The cleanup phase of `uninstallPlugin`: revoke capabilities, drop the
in-memory instance and context, remove from the enabled set, persist, then
delegate filesystem removal. A persistence failure is caught by the
surrounding try/catch and becomes a `false` return, skipping the installer. -/
def uninstallCleanup (s : ManagerState) (fsS : FSState) (name : String)
    (hookInv : Bool) : UninstallResult :=
  let s2 : ManagerState := { s with
    registry := unregisterPlugin s.registry name,
    plugins := deleteA s.plugins name,
    pluginContexts := deleteA s.pluginContexts name,
    enabledPlugins := deleteS s.enabledPlugins name }
  match saveEnabledPlugins fsS s2.enabledPlugins with
  | .error _ =>
    { ret := false, state := s2, fsS := fsS,
      hookInvoked := hookInv, installerInvoked := false }
  | .ok fs2 =>
    { ret := true, state := s2, fsS := fs2,
      hookInvoked := hookInv, installerInvoked := true }

/-- `PluginManager.uninstallPlugin`: the whole body sits in one try/catch, so
an exception from `onUninstall` (or from the persistence write) is caught and
returns `false`, aborting the remaining steps. -/
def uninstallPlugin (s : ManagerState) (fsS : FSState) (name : String) :
    UninstallResult :=
  match lookupA s.plugins name with
  | some p =>
    match p.onUninstall with
    | some (.throws _) =>
      { ret := false, state := s, fsS := fsS,
        hookInvoked := true, installerInvoked := false }
    | some .ok => uninstallCleanup s fsS name true
    | none => uninstallCleanup s fsS name false
  | none => uninstallCleanup s fsS name false

/-- `PluginManager.enablePlugin`: no try/catch — a throwing `onEnable` or a
failing persistence write propagates (`Except.error` carries the message and
the state at the moment of the throw). -/
def enablePlugin (s : ManagerState) (fsS : FSState) (name : String) :
    Except (String × ManagerState × FSState) (Bool × ManagerState × FSState) :=
  match lookupA s.plugins name with
  | none => .ok (false, s, fsS)
  | some p =>
    match p.onEnable with
    | some (.throws m) => .error (m, s, fsS)
    | _ =>
      let s2 := { s with enabledPlugins := addS s.enabledPlugins name }
      match saveEnabledPlugins fsS s2.enabledPlugins with
      | .error m => .error (m, s2, fsS)
      | .ok fs2 => .ok (true, s2, fs2)

/-- `PluginManager.disablePlugin`: mirror of `enablePlugin` with `onDisable`
and `Set.delete`. -/
def disablePlugin (s : ManagerState) (fsS : FSState) (name : String) :
    Except (String × ManagerState × FSState) (Bool × ManagerState × FSState) :=
  match lookupA s.plugins name with
  | none => .ok (false, s, fsS)
  | some p =>
    match p.onDisable with
    | some (.throws m) => .error (m, s, fsS)
    | _ =>
      let s2 := { s with enabledPlugins := deleteS s.enabledPlugins name }
      match saveEnabledPlugins fsS s2.enabledPlugins with
      | .error m => .error (m, s2, fsS)
      | .ok fs2 => .ok (true, s2, fs2)

/-! ## Verification-side definitions and concrete scenarios -/

def wfCapabilityKey (k : String) : Bool :=
  match splitColon k with
  | [ty, nm] => decide (k = ty ++ ":" ++ nm) && noColon ty && noColon nm
  | _ => false

def ownershipHit : List (String × String) → String → String → Bool
  | [], _, _ => false
  | kv :: rest, k, v =>
    if kv.1 = k ∧ kv.2 = v then true else ownershipHit rest k v

/-- The optional hook, if present, returns normally rather than throwing. -/
def hookBenign : Option HookResult → Bool
  | some (.throws _) => false
  | _ => true

def emptyState : ManagerState := { pluginRoot := "/ws/.gemini/plugins" }

def emptyFs : FSState := { enabledFile := .missing }

def rtMd : PluginMetadata :=
  { name := some "r", version := some "1.0.0", description := some "d",
    author := some "a", type := some "tool", entryPoint := some "index.js",
    compatibility := true }

def rtPlugin : GeminiPlugin :=
  { metadata := some rtMd, onEnable := some .ok, onDisable := some .ok }

def rtState : ManagerState :=
  { pluginRoot := "/ws/.gemini/plugins",
    plugins := [("r", rtPlugin)],
    enabledPlugins := ["r"] }

def rtFs : FSState := { enabledFile := .parsed (some ["r"]) }

def gState : ManagerState :=
  { pluginRoot := "/ws/.gemini/plugins", enabledPlugins := ["g"] }

def gFs : FSState := { enabledFile := .parsed (some ["g"]) }

def uxMd : PluginMetadata :=
  { name := some "x", version := some "1.0.0", description := some "d",
    author := some "a", type := some "tool", entryPoint := some "index.js",
    compatibility := true }

def uxCmd : PluginCommand := { name := "x-cmd", description := "demo command" }

def uxPlugin : GeminiPlugin :=
  { metadata := some uxMd,
    onUninstall := some (.throws "hook failed"),
    registerCommands := some { actions := [.register uxCmd], outcome := .ok } }

def uxState : ManagerState :=
  { pluginRoot := "/ws/.gemini/plugins",
    plugins := [("x", uxPlugin)],
    pluginContexts := [("x",
      { workspaceRoot := "/ws/.gemini", pluginRoot := "/ws/.gemini/plugins/x",
        config := {} })],
    registry := { commands := [("x-cmd", uxCmd)],
                  pluginOwnership := [("command:x-cmd", "unknown")] },
    enabledPlugins := ["x"] }

def uxFs : FSState := { enabledFile := .parsed (some ["x"]) }

def pfState : ManagerState :=
  { pluginRoot := "/ws/.gemini/plugins", enabledPlugins := ["y"] }

def pfFs : FSState :=
  { enabledFile := .parsed (some ["y"]),
    writeError := some "EACCES: permission denied" }

def pfPlugin : GeminiPlugin := { metadata := none }

def pfState2 : ManagerState :=
  { pluginRoot := "/ws/.gemini/plugins", plugins := [("y", pfPlugin)] }

def xMd : PluginMetadata :=
  { name := some "x", version := some "1.0.0", description := some "d",
    author := some "a", type := some "tool", entryPoint := some "index.js",
    compatibility := true }

def xCmd : PluginCommand := { name := "x-cmd", description := "demo command" }

def xPlugin : GeminiPlugin :=
  { metadata := some xMd,
    registerCommands := some { actions := [.register xCmd], outcome := .ok } }

def xDisk : PluginDisk :=
  { dirExists := true, packageJson := some (.ok xMd), entryPointExists := true,
    importResult := .ok [("default", fun _ => xPlugin)], configJson := none }

def xState : ManagerState := { pluginRoot := "/ws/.gemini/plugins" }

def tCmd : PluginCommand := { name := "t-cmd", description := "demo command" }

def tMd : PluginMetadata :=
  { name := some "t", version := some "1.0.0", description := some "d",
    author := some "a", type := some "tool", entryPoint := some "index.js",
    compatibility := true }

def tPlugin : GeminiPlugin :=
  { metadata := some tMd,
    registerCommands :=
      some { actions := [.register tCmd], outcome := .throws "boom" } }

def tDisk : PluginDisk :=
  { dirExists := true, packageJson := some (.ok tMd), entryPointExists := true,
    importResult := .ok [("default", fun _ => tPlugin)], configJson := none }

def tState : ManagerState := { pluginRoot := "/ws/.gemini/plugins" }

def cxCmdA : PluginCommand := { name := "a", description := "plain name" }

def cxCmdAB : PluginCommand := { name := "a:b", description := "colon name" }

def cxReg : PluginRegistry := registerCommand (registerCommand {} cxCmdA) cxCmdAB

def wReg : PluginRegistry :=
  { commands := [("a", cxCmdA), ("b", { name := "b", description := "other" })],
    pluginOwnership := [("command:a", "p1"), ("command:b", "p2")] }

/-! ## Helper lemmas -/

lemma lookupA_deleteA {α : Type} (m : List (String × α)) (k j : String) :
    lookupA (deleteA m k) j = if j = k then none else lookupA m j := by
  induction m with
  | nil => simp [deleteA, lookupA]
  | cons kv rest ih =>
    by_cases h1 : kv.1 = k
    · have h1' : deleteA (kv :: rest) k = deleteA rest k := by simp [deleteA, h1]
      rw [h1', ih]
      by_cases h2 : j = k
      · simp [h2]
      · have hne : ¬ kv.1 = j := by rw [h1]; exact fun hh => h2 hh.symm
        simp [lookupA, h2, hne]
    · have h1' : deleteA (kv :: rest) k = kv :: deleteA rest k := by
        simp [deleteA, h1]
      rw [h1']
      by_cases h2 : kv.1 = j
      · have h3 : ¬ j = k := fun hh => h1 (h2.trans hh)
        simp [lookupA, h2, h3]
      · simp [lookupA, h2, ih]

lemma containsS_deleteS (l : List String) (n : String) :
    containsS (deleteS l n) n = false := by
  induction l with
  | nil => rfl
  | cons x rest ih =>
    by_cases h : x = n <;> simp [deleteS, containsS, h, ih]

lemma containsS_append_self (l : List String) (n : String) :
    containsS (l ++ [n]) n = true := by
  induction l with
  | nil => simp [containsS]
  | cons x rest ih =>
    by_cases h : x = n <;> simp [containsS, h, ih]

lemma containsS_addS_self (l : List String) (n : String) :
    containsS (addS l n) n = true := by
  unfold addS
  by_cases h : containsS l n = true
  · simp [h]
  · simp [Bool.not_eq_true] at h
    simp [h, containsS_append_self]

/-! ## Colon-splitting facts -/

lemma noColonChars_not_mem {l : List Char} (h : noColonChars l = true) :
    ':' ∉ l := by
  induction l with
  | nil => simp
  | cons c rest ih =>
    by_cases hc : c = ':'
    · simp [noColonChars, hc] at h
    · simp [noColonChars, hc] at h
      intro hmem
      rcases List.mem_cons.mp hmem with h1 | h2
      · exact hc h1.symm
      · exact ih h h2

lemma colon_split_unique :
    ∀ (a b c d : List Char), ':' ∉ a → ':' ∉ c →
      a ++ ':' :: b = c ++ ':' :: d → a = c ∧ b = d := by
  intro a
  induction a with
  | nil =>
    intro b c d _ hc heq
    cases c with
    | nil => simpa using heq
    | cons ch ct =>
      simp at heq
      exact absurd (heq.1 ▸ List.mem_cons_self _ _) hc
  | cons ah at' ih =>
    intro b c d ha hc heq
    cases c with
    | nil =>
      simp at heq
      exact absurd (heq.1 ▸ List.mem_cons_self _ _) ha
    | cons ch ct =>
      simp at heq
      have ha' : ':' ∉ at' := fun hm => ha (List.mem_cons_of_mem _ hm)
      have hc' : ':' ∉ ct := fun hm => hc (List.mem_cons_of_mem _ hm)
      rcases ih b ct d ha' hc' heq.2 with ⟨h1, h2⟩
      exact ⟨by rw [heq.1, h1], h2⟩

lemma string_colon_eq {ty nm c n : String}
    (hty : noColon ty = true) (hc : noColon c = true) :
    ty ++ ":" ++ nm = c ++ ":" ++ n ↔ ty = c ∧ nm = n := by
  constructor
  · intro h
    have hdata : ty.data ++ ':' :: nm.data = c.data ++ ':' :: n.data := by
      have h2 := congrArg String.data h
      have hcol : (":" : String).data = [':'] := rfl
      simpa [String.data_append, hcol] using h2
    have h3 := colon_split_unique ty.data nm.data c.data n.data
      (noColonChars_not_mem hty) (noColonChars_not_mem hc) hdata
    exact ⟨String.ext h3.1, String.ext h3.2⟩
  · rintro ⟨h1, h2⟩; rw [h1, h2]


lemma wfCapabilityKey_spec {k : String} (h : wfCapabilityKey k = true) :
    ∃ ty nm, splitColon k = [ty, nm] ∧ k = ty ++ ":" ++ nm ∧
      noColon ty = true ∧ noColon nm = true := by
  unfold wfCapabilityKey at h
  rcases hs : splitColon k with _ | ⟨ty, _ | ⟨nm, _ | ⟨x, tl⟩⟩⟩ <;> rw [hs] at h
  · simp at h
  · simp at h
  · simp at h
    exact ⟨ty, nm, rfl, h.1.1, h.1.2, h.2⟩
  · simp at h

lemma unregDeleteCapability_ownership (acc : PluginRegistry) (c : String) :
    (unregDeleteCapability acc c).pluginOwnership = acc.pluginOwnership := by
  unfold unregDeleteCapability
  split
  · split_ifs <;> rfl
  · rfl

lemma unregStep_ownership (owner : String) (acc : PluginRegistry)
    (kv : String × String) :
    (unregStep owner acc kv).pluginOwnership =
      if kv.2 = owner then deleteA acc.pluginOwnership kv.1
      else acc.pluginOwnership := by
  unfold unregStep
  by_cases h : kv.2 = owner
  · rw [if_pos h, if_pos h]
    exact congrArg (fun o => deleteA o kv.1) (unregDeleteCapability_ownership acc kv.1)
  · rw [if_neg h, if_neg h]

lemma unregDeleteCapability_commands (acc : PluginRegistry) (c ty nm : String)
    (hs : splitColon c = [ty, nm]) :
    (unregDeleteCapability acc c).commands =
      if ty = "command" then deleteA acc.commands nm else acc.commands := by
  unfold unregDeleteCapability
  split
  next ty2 nm2 tail heq =>
    rw [hs] at heq
    injection heq with h1 rest
    injection rest with h2 h3
    subst h1; subst h2
    split_ifs <;> rfl
  next x heq =>
    rw [hs] at heq
    exact absurd rfl (heq ty nm [])

lemma unregStep_commands (owner : String) (acc : PluginRegistry)
    (kv : String × String) (ty nm : String) (hs : splitColon kv.1 = [ty, nm]) :
    (unregStep owner acc kv).commands =
      if kv.2 = owner then
        (if ty = "command" then deleteA acc.commands nm else acc.commands)
      else acc.commands := by
  unfold unregStep
  by_cases h : kv.2 = owner
  · rw [if_pos h, if_pos h]
    exact unregDeleteCapability_commands acc kv.1 ty nm hs
  · rw [if_neg h, if_neg h]


lemma ownershipHit_false_of_not_mem {l : List (String × String)} {k v : String}
    (h : k ∉ l.map Prod.fst) : ownershipHit l k v = false := by
  induction l with
  | nil => rfl
  | cons kv rest ih =>
    have h1 : ¬ kv.1 = k := fun hh => h (by simp [hh])
    have h2 : k ∉ rest.map Prod.fst := fun hh => h (by simp [hh])
    simp [ownershipHit, h1, ih h2]

lemma ownershipHit_eq_lookupA {l : List (String × String)} {k v : String}
    (hnd : (l.map Prod.fst).Nodup) :
    (ownershipHit l k v = true) ↔ lookupA l k = some v := by
  induction l with
  | nil => simp [ownershipHit, lookupA]
  | cons kv rest ih =>
    rw [List.map_cons, List.nodup_cons] at hnd
    by_cases h1 : kv.1 = k
    · by_cases h2 : kv.2 = v
      · simp [ownershipHit, lookupA, h1, h2]
      · have hrest : ownershipHit rest k v = false :=
          ownershipHit_false_of_not_mem (h1 ▸ hnd.1)
        simp [ownershipHit, lookupA, h1, h2, hrest]
    · simp [ownershipHit, lookupA, h1, ih hnd.2]

lemma foldl_unregStep_ownership (owner : String) :
    ∀ (l : List (String × String)) (acc : PluginRegistry) (k : String),
      lookupA (l.foldl (unregStep owner) acc).pluginOwnership k =
      if ownershipHit l k owner = true then none
      else lookupA acc.pluginOwnership k := by
  intro l
  induction l with
  | nil => intro acc k; simp [ownershipHit]
  | cons kv rest ih =>
    intro acc k
    rw [List.foldl_cons, ih, unregStep_ownership]
    by_cases hcond : kv.1 = k ∧ kv.2 = owner
    · have hc : ownershipHit (kv :: rest) k owner = true := by
        simp [ownershipHit, hcond.1, hcond.2]
      rw [hc, if_pos rfl, if_pos hcond.2, lookupA_deleteA, if_pos hcond.1.symm]
      exact ite_self none
    · have hc : ownershipHit (kv :: rest) k owner = ownershipHit rest k owner := by
        simp [ownershipHit, hcond]
      rw [hc]
      by_cases hrest : ownershipHit rest k owner = true
      · rw [if_pos hrest, if_pos hrest]
      · rw [if_neg hrest, if_neg hrest]
        by_cases h2 : kv.2 = owner
        · rw [if_pos h2, lookupA_deleteA,
            if_neg (fun hh => hcond ⟨hh.symm, h2⟩)]
        · rw [if_neg h2]

lemma foldl_unregStep_commands (owner : String) :
    ∀ (l : List (String × String)) (acc : PluginRegistry) (n : String),
      (∀ kv ∈ l, wfCapabilityKey kv.1 = true) →
      lookupA (l.foldl (unregStep owner) acc).commands n =
      if ownershipHit l ("command:" ++ n) owner = true then none
      else lookupA acc.commands n := by
  intro l
  induction l with
  | nil => intro acc n _; simp [ownershipHit]
  | cons kv rest ih =>
    intro acc n hwf
    obtain ⟨ty, nm, hs, hk, hty, hnm⟩ :=
      wfCapabilityKey_spec (hwf kv (List.mem_cons_self _ _))
    have hwfr : ∀ kv2 ∈ rest, wfCapabilityKey kv2.1 = true :=
      fun kv2 hm => hwf kv2 (List.mem_cons_of_mem _ hm)
    rw [List.foldl_cons, ih _ _ hwfr, unregStep_commands owner acc kv ty nm hs]
    have hcmd : noColon "command" = true := by decide
    by_cases hcond : kv.1 = "command:" ++ n ∧ kv.2 = owner
    · have h5 : ty = "command" ∧ nm = n :=
        (string_colon_eq hty hcmd).mp (hk.symm.trans hcond.1)
      have hc : ownershipHit (kv :: rest) ("command:" ++ n) owner = true := by
        simp [ownershipHit, hcond.1, hcond.2]
      rw [hc, if_pos hcond.2, if_pos h5.1, h5.2, lookupA_deleteA]
      simp
    · have hc : ownershipHit (kv :: rest) ("command:" ++ n) owner
          = ownershipHit rest ("command:" ++ n) owner := by
        simp [ownershipHit, hcond]
      rw [hc]
      by_cases hrest : ownershipHit rest ("command:" ++ n) owner = true
      · rw [if_pos hrest, if_pos hrest]
      · rw [if_neg hrest, if_neg hrest]
        by_cases h2 : kv.2 = owner
        · rw [if_pos h2]
          by_cases h3 : ty = "command"
          · have h4 : ¬ nm = n := fun hh => hcond ⟨by rw [hk, h3, hh]; rfl, h2⟩
            rw [if_pos h3, lookupA_deleteA, if_neg (fun hh => h4 hh.symm)]
          · rw [if_neg h3]
        · rw [if_neg h2]

lemma unregDeleteCapability_tools (acc : PluginRegistry) (c ty nm : String)
    (hs : splitColon c = [ty, nm]) :
    (unregDeleteCapability acc c).tools =
      if ty = "tool" then deleteA acc.tools nm else acc.tools := by
  unfold unregDeleteCapability
  split
  next ty2 nm2 tail heq =>
    rw [hs] at heq
    injection heq with h1 rest
    injection rest with h2 h3
    subst h1; subst h2
    split_ifs <;> simp_all
  next x heq =>
    rw [hs] at heq
    exact absurd rfl (heq ty nm [])

lemma unregStep_tools (owner : String) (acc : PluginRegistry)
    (kv : String × String) (ty nm : String) (hs : splitColon kv.1 = [ty, nm]) :
    (unregStep owner acc kv).tools =
      if kv.2 = owner then
        (if ty = "tool" then deleteA acc.tools nm else acc.tools)
      else acc.tools := by
  unfold unregStep
  by_cases h : kv.2 = owner
  · rw [if_pos h, if_pos h]
    exact unregDeleteCapability_tools acc kv.1 ty nm hs
  · rw [if_neg h, if_neg h]

lemma foldl_unregStep_tools (owner : String) :
    ∀ (l : List (String × String)) (acc : PluginRegistry) (n : String),
      (∀ kv ∈ l, wfCapabilityKey kv.1 = true) →
      lookupA (l.foldl (unregStep owner) acc).tools n =
      if ownershipHit l ("tool:" ++ n) owner = true then none
      else lookupA acc.tools n := by
  intro l
  induction l with
  | nil => intro acc n _; simp [ownershipHit]
  | cons kv rest ih =>
    intro acc n hwf
    obtain ⟨ty, nm, hs, hk, hty, hnm⟩ :=
      wfCapabilityKey_spec (hwf kv (List.mem_cons_self _ _))
    have hwfr : ∀ kv2 ∈ rest, wfCapabilityKey kv2.1 = true :=
      fun kv2 hm => hwf kv2 (List.mem_cons_of_mem _ hm)
    rw [List.foldl_cons, ih _ _ hwfr, unregStep_tools owner acc kv ty nm hs]
    have hword : noColon "tool" = true := by decide
    by_cases hcond : kv.1 = "tool:" ++ n ∧ kv.2 = owner
    · have h5 : ty = "tool" ∧ nm = n :=
        (string_colon_eq hty hword).mp (hk.symm.trans hcond.1)
      have hc : ownershipHit (kv :: rest) ("tool:" ++ n) owner = true := by
        simp [ownershipHit, hcond.1, hcond.2]
      rw [hc, if_pos hcond.2, if_pos h5.1, h5.2, lookupA_deleteA]
      simp
    · have hc : ownershipHit (kv :: rest) ("tool:" ++ n) owner
          = ownershipHit rest ("tool:" ++ n) owner := by
        simp [ownershipHit, hcond]
      rw [hc]
      by_cases hrest : ownershipHit rest ("tool:" ++ n) owner = true
      · rw [if_pos hrest, if_pos hrest]
      · rw [if_neg hrest, if_neg hrest]
        by_cases h2 : kv.2 = owner
        · rw [if_pos h2]
          by_cases h3 : ty = "tool"
          · have h4 : ¬ nm = n := fun hh => hcond ⟨by rw [hk, h3, hh]; rfl, h2⟩
            rw [if_pos h3, lookupA_deleteA, if_neg (fun hh => h4 hh.symm)]
          · rw [if_neg h3]
        · rw [if_neg h2]


lemma unregDeleteCapability_themes (acc : PluginRegistry) (c ty nm : String)
    (hs : splitColon c = [ty, nm]) :
    (unregDeleteCapability acc c).themes =
      if ty = "theme" then deleteA acc.themes nm else acc.themes := by
  unfold unregDeleteCapability
  split
  next ty2 nm2 tail heq =>
    rw [hs] at heq
    injection heq with h1 rest
    injection rest with h2 h3
    subst h1; subst h2
    split_ifs <;> simp_all
  next x heq =>
    rw [hs] at heq
    exact absurd rfl (heq ty nm [])

lemma unregStep_themes (owner : String) (acc : PluginRegistry)
    (kv : String × String) (ty nm : String) (hs : splitColon kv.1 = [ty, nm]) :
    (unregStep owner acc kv).themes =
      if kv.2 = owner then
        (if ty = "theme" then deleteA acc.themes nm else acc.themes)
      else acc.themes := by
  unfold unregStep
  by_cases h : kv.2 = owner
  · rw [if_pos h, if_pos h]
    exact unregDeleteCapability_themes acc kv.1 ty nm hs
  · rw [if_neg h, if_neg h]

lemma foldl_unregStep_themes (owner : String) :
    ∀ (l : List (String × String)) (acc : PluginRegistry) (n : String),
      (∀ kv ∈ l, wfCapabilityKey kv.1 = true) →
      lookupA (l.foldl (unregStep owner) acc).themes n =
      if ownershipHit l ("theme:" ++ n) owner = true then none
      else lookupA acc.themes n := by
  intro l
  induction l with
  | nil => intro acc n _; simp [ownershipHit]
  | cons kv rest ih =>
    intro acc n hwf
    obtain ⟨ty, nm, hs, hk, hty, hnm⟩ :=
      wfCapabilityKey_spec (hwf kv (List.mem_cons_self _ _))
    have hwfr : ∀ kv2 ∈ rest, wfCapabilityKey kv2.1 = true :=
      fun kv2 hm => hwf kv2 (List.mem_cons_of_mem _ hm)
    rw [List.foldl_cons, ih _ _ hwfr, unregStep_themes owner acc kv ty nm hs]
    have hword : noColon "theme" = true := by decide
    by_cases hcond : kv.1 = "theme:" ++ n ∧ kv.2 = owner
    · have h5 : ty = "theme" ∧ nm = n :=
        (string_colon_eq hty hword).mp (hk.symm.trans hcond.1)
      have hc : ownershipHit (kv :: rest) ("theme:" ++ n) owner = true := by
        simp [ownershipHit, hcond.1, hcond.2]
      rw [hc, if_pos hcond.2, if_pos h5.1, h5.2, lookupA_deleteA]
      simp
    · have hc : ownershipHit (kv :: rest) ("theme:" ++ n) owner
          = ownershipHit rest ("theme:" ++ n) owner := by
        simp [ownershipHit, hcond]
      rw [hc]
      by_cases hrest : ownershipHit rest ("theme:" ++ n) owner = true
      · rw [if_pos hrest, if_pos hrest]
      · rw [if_neg hrest, if_neg hrest]
        by_cases h2 : kv.2 = owner
        · rw [if_pos h2]
          by_cases h3 : ty = "theme"
          · have h4 : ¬ nm = n := fun hh => hcond ⟨by rw [hk, h3, hh]; rfl, h2⟩
            rw [if_pos h3, lookupA_deleteA, if_neg (fun hh => h4 hh.symm)]
          · rw [if_neg h3]
        · rw [if_neg h2]


lemma unregDeleteCapability_extensions (acc : PluginRegistry) (c ty nm : String)
    (hs : splitColon c = [ty, nm]) :
    (unregDeleteCapability acc c).extensions =
      if ty = "extension" then deleteA acc.extensions nm else acc.extensions := by
  unfold unregDeleteCapability
  split
  next ty2 nm2 tail heq =>
    rw [hs] at heq
    injection heq with h1 rest
    injection rest with h2 h3
    subst h1; subst h2
    split_ifs <;> simp_all
  next x heq =>
    rw [hs] at heq
    exact absurd rfl (heq ty nm [])

lemma unregStep_extensions (owner : String) (acc : PluginRegistry)
    (kv : String × String) (ty nm : String) (hs : splitColon kv.1 = [ty, nm]) :
    (unregStep owner acc kv).extensions =
      if kv.2 = owner then
        (if ty = "extension" then deleteA acc.extensions nm else acc.extensions)
      else acc.extensions := by
  unfold unregStep
  by_cases h : kv.2 = owner
  · rw [if_pos h, if_pos h]
    exact unregDeleteCapability_extensions acc kv.1 ty nm hs
  · rw [if_neg h, if_neg h]

lemma foldl_unregStep_extensions (owner : String) :
    ∀ (l : List (String × String)) (acc : PluginRegistry) (n : String),
      (∀ kv ∈ l, wfCapabilityKey kv.1 = true) →
      lookupA (l.foldl (unregStep owner) acc).extensions n =
      if ownershipHit l ("extension:" ++ n) owner = true then none
      else lookupA acc.extensions n := by
  intro l
  induction l with
  | nil => intro acc n _; simp [ownershipHit]
  | cons kv rest ih =>
    intro acc n hwf
    obtain ⟨ty, nm, hs, hk, hty, hnm⟩ :=
      wfCapabilityKey_spec (hwf kv (List.mem_cons_self _ _))
    have hwfr : ∀ kv2 ∈ rest, wfCapabilityKey kv2.1 = true :=
      fun kv2 hm => hwf kv2 (List.mem_cons_of_mem _ hm)
    rw [List.foldl_cons, ih _ _ hwfr, unregStep_extensions owner acc kv ty nm hs]
    have hword : noColon "extension" = true := by decide
    by_cases hcond : kv.1 = "extension:" ++ n ∧ kv.2 = owner
    · have h5 : ty = "extension" ∧ nm = n :=
        (string_colon_eq hty hword).mp (hk.symm.trans hcond.1)
      have hc : ownershipHit (kv :: rest) ("extension:" ++ n) owner = true := by
        simp [ownershipHit, hcond.1, hcond.2]
      rw [hc, if_pos hcond.2, if_pos h5.1, h5.2, lookupA_deleteA]
      simp
    · have hc : ownershipHit (kv :: rest) ("extension:" ++ n) owner
          = ownershipHit rest ("extension:" ++ n) owner := by
        simp [ownershipHit, hcond]
      rw [hc]
      by_cases hrest : ownershipHit rest ("extension:" ++ n) owner = true
      · rw [if_pos hrest, if_pos hrest]
      · rw [if_neg hrest, if_neg hrest]
        by_cases h2 : kv.2 = owner
        · rw [if_pos h2]
          by_cases h3 : ty = "extension"
          · have h4 : ¬ nm = n := fun hh => hcond ⟨by rw [hk, h3, hh]; rfl, h2⟩
            rw [if_pos h3, lookupA_deleteA, if_neg (fun hh => h4 hh.symm)]
          · rw [if_neg h3]
        · rw [if_neg h2]

/-! ## Claim C1 -/

/-- Claim C1 at the failing input: loading the valid plugin `x` whose
`registerCommands` hook registers the command `x-cmd` succeeds and stores the
command, but the ownership entry records the owner as the literal string
`'unknown'`, so `getPluginCapabilities "x"` returns the empty partition instead
of the registered capability — the registry never learns the plugin's name. -/
theorem loadPlugin_capabilitiesOf_empty_despite_registration :
    (loadPlugin xDisk xState "x").1.success = true ∧
    lookupA (loadPlugin xDisk xState "x").2.registry.commands "x-cmd"
      = some xCmd ∧
    lookupA (loadPlugin xDisk xState "x").2.registry.pluginOwnership
      "command:x-cmd" = some "unknown" ∧
    getPluginCapabilities (loadPlugin xDisk xState "x").2.registry "x" = {} ∧
    getPluginCapabilities (loadPlugin xDisk xState "x").2.registry "unknown"
      = { commands := [xCmd] } := by decide

/-! ## Claim C2 -/

/-- Claim C2 at the failing input: with the `{ success: true }` result that
every success path of `PluginInstaller.install` produces (no `plugin` field),
`installPlugin` never attempts `loadPlugin` — the `result.success &&
result.plugin` guard is false — and for an installer failure the load is also
skipped and the installer's error result is returned verbatim. -/
theorem installPlugin_never_attempts_load :
    (∀ (disk : PluginDisk) (s : ManagerState) (name : String),
      installPlugin installerSuccessResult disk s name =
        (installerSuccessResult, s, false)) ∧
    (∀ (e : String) (disk : PluginDisk) (s : ManagerState) (name : String),
      installPlugin { success := false, error := some e } disk s name =
        ({ success := false, error := some e }, s, false)) := by
  constructor
  · intro disk s name
    simp [installPlugin, installerSuccessResult]
  · intro e disk s name
    simp [installPlugin]

/-! ## Claim C3 -/

/-- Counterexample to claim C3 as stated: with a loaded plugin whose
`onUninstall` throws, `uninstallPlugin` returns `false` (the claim says
`true`), the name is still in the enabled set (the claim says removed), its
capability is still registered (the claim says removed), and the installer is
never invoked (the claim says filesystem removal is still delegated). -/
theorem uninstall_throwing_hook_cex :
    (uninstallPlugin uxState uxFs "x").ret = false ∧
    containsS (uninstallPlugin uxState uxFs "x").state.enabledPlugins "x" = true ∧
    lookupA (uninstallPlugin uxState uxFs "x").state.registry.commands "x-cmd"
      = some uxCmd ∧
    (uninstallPlugin uxState uxFs "x").installerInvoked = false := by decide

/-- Claim C3 (amended): when the `onUninstall` hook of a loaded plugin throws,
the exception is caught by the single try/catch around the whole operation, so
`uninstallPlugin` returns `false` and performs no cleanup at all: the instance
maps, registry, and enabled set are untouched, nothing is persisted, and the
installer's filesystem removal is never invoked. -/
theorem uninstall_throwing_hook_aborts_cleanup
    (s : ManagerState) (fsS : FSState) (name : String) (p : GeminiPlugin)
    (m : String)
    (hp : lookupA s.plugins name = some p)
    (hu : p.onUninstall = some (.throws m)) :
    uninstallPlugin s fsS name =
      { ret := false, state := s, fsS := fsS,
        hookInvoked := true, installerInvoked := false } := by
  simp [uninstallPlugin, hp, hu]

/-- Witness for the amended C3 at the concrete counterexample state. -/
theorem uninstall_throwing_hook_aborts_cleanup_witness :
    uninstallPlugin uxState uxFs "x" =
      { ret := false, state := uxState, fsS := uxFs,
        hookInvoked := true, installerInvoked := false } :=
  uninstall_throwing_hook_aborts_cleanup uxState uxFs "x" uxPlugin "hook failed"
    (by decide) (by decide)

/-! ## Claim C4 -/

/-- Counterexample to claim C4 as stated: in `uninstallPlugin` a failing
enabled-set write does not propagate — it is caught by the surrounding
try/catch and converted into a `false` return, with nothing persisted and the
installer never invoked. -/
theorem uninstall_persistence_failure_swallowed_cex :
    (uninstallPlugin pfState pfFs "y").ret = false ∧
    (uninstallPlugin pfState pfFs "y").fsS = pfFs ∧
    (uninstallPlugin pfState pfFs "y").installerInvoked = false := by decide

/-- Claim C4 (amended): a failure of the enabled-set persistence write
propagates to the caller for `enablePlugin` and `disablePlugin` (which have no
try/catch), but in `uninstallPlugin` it is caught and converted into a `false`
return. -/
theorem persistence_failure_propagation_amended :
    (∀ (s : ManagerState) (fsS : FSState) (name : String) (p : GeminiPlugin)
       (m : String),
      lookupA s.plugins name = some p → hookBenign p.onEnable = true →
      fsS.writeError = some m →
      enablePlugin s fsS name =
        .error (m, { s with enabledPlugins := addS s.enabledPlugins name }, fsS)) ∧
    (∀ (s : ManagerState) (fsS : FSState) (name : String) (p : GeminiPlugin)
       (m : String),
      lookupA s.plugins name = some p → hookBenign p.onDisable = true →
      fsS.writeError = some m →
      disablePlugin s fsS name =
        .error (m, { s with enabledPlugins := deleteS s.enabledPlugins name }, fsS)) ∧
    (∀ (s : ManagerState) (fsS : FSState) (name m : String),
      fsS.writeError = some m →
      (uninstallPlugin s fsS name).ret = false ∧
      (uninstallPlugin s fsS name).fsS = fsS ∧
      (uninstallPlugin s fsS name).installerInvoked = false) := by
  refine ⟨?_, ?_, ?_⟩
  · intro s fsS name p m hp he hw
    rcases hoe : p.onEnable with _ | hr
    · simp [enablePlugin, hp, hoe, saveEnabledPlugins, hw]
    · cases hr
      · simp [enablePlugin, hp, hoe, saveEnabledPlugins, hw]
      · rw [hoe] at he; simp [hookBenign] at he
  · intro s fsS name p m hp hd hw
    rcases hod : p.onDisable with _ | hr
    · simp [disablePlugin, hp, hod, saveEnabledPlugins, hw]
    · cases hr
      · simp [disablePlugin, hp, hod, saveEnabledPlugins, hw]
      · rw [hod] at hd; simp [hookBenign] at hd
  · intro s fsS name m hw
    rcases hp : lookupA s.plugins name with _ | p
    · simp [uninstallPlugin, hp, uninstallCleanup, saveEnabledPlugins, hw]
    · rcases hu : p.onUninstall with _ | hr
      · simp [uninstallPlugin, hp, hu, uninstallCleanup, saveEnabledPlugins, hw]
      · cases hr
        · simp [uninstallPlugin, hp, hu, uninstallCleanup, saveEnabledPlugins, hw]
        · simp [uninstallPlugin, hp, hu]

/-- Witness for the amended C4: a concrete propagated enable failure and a
concrete swallowed uninstall failure. -/
theorem persistence_failure_propagation_amended_witness :
    enablePlugin pfState2 pfFs "y" =
      .error ("EACCES: permission denied",
        { pfState2 with enabledPlugins := addS pfState2.enabledPlugins "y" },
        pfFs) ∧
    (uninstallPlugin pfState pfFs "y").ret = false := by
  constructor
  · exact persistence_failure_propagation_amended.1 pfState2 pfFs "y" pfPlugin
      "EACCES: permission denied" (by decide) (by decide) rfl
  · exact (persistence_failure_propagation_amended.2.2 pfState pfFs "y"
      "EACCES: permission denied" rfl).1

/-! ## Claim C5 -/

/-- Counterexample to claim C5 as stated: in the reachable registry holding
commands `a` and `a:b` (both recorded with owner `'unknown'`),
`unregisterPlugin "unknown"` must remove every owned capability, but the
`capability.split(':')` destructuring truncates the key `command:a:b` to the
name `a`, so the command `a:b` — owned by the revoked owner — survives while
its ownership entry is gone. -/
theorem unregisterPlugin_colon_name_cex :
    lookupA cxReg.pluginOwnership "command:a:b" = some "unknown" ∧
    lookupA (unregisterPlugin cxReg "unknown").commands "a:b" = some cxCmdAB ∧
    (unregisterPlugin cxReg "unknown").pluginOwnership = [] := by decide

/-- Claim C5 (amended): for every owner name and every registry state whose
ownership map has duplicate-free keys, each of the exact form
`kind ++ ":" ++ name` with a colon-free kind and a colon-free capability name,
`unregisterPlugin` (the spec's `revokeAll`) removes exactly the capability
entries and ownership entries whose current owner equals the given owner, and
leaves every entry whose ownership names a different plugin unchanged —
including keys previously owned by this owner whose ownership was later
overwritten. -/
theorem unregisterPlugin_revokes_exactly_owned
    (reg : PluginRegistry) (owner : String)
    (hnd : (reg.pluginOwnership.map Prod.fst).Nodup)
    (hwf : ∀ kv ∈ reg.pluginOwnership, wfCapabilityKey kv.1 = true) :
    (∀ k, lookupA (unregisterPlugin reg owner).pluginOwnership k =
       if lookupA reg.pluginOwnership k = some owner then none
       else lookupA reg.pluginOwnership k) ∧
    (∀ n, lookupA (unregisterPlugin reg owner).commands n =
       if lookupA reg.pluginOwnership ("command:" ++ n) = some owner then none
       else lookupA reg.commands n) ∧
    (∀ n, lookupA (unregisterPlugin reg owner).tools n =
       if lookupA reg.pluginOwnership ("tool:" ++ n) = some owner then none
       else lookupA reg.tools n) ∧
    (∀ n, lookupA (unregisterPlugin reg owner).themes n =
       if lookupA reg.pluginOwnership ("theme:" ++ n) = some owner then none
       else lookupA reg.themes n) ∧
    (∀ n, lookupA (unregisterPlugin reg owner).extensions n =
       if lookupA reg.pluginOwnership ("extension:" ++ n) = some owner then none
       else lookupA reg.extensions n) := by
  refine ⟨fun k => ?_, fun n => ?_, fun n => ?_, fun n => ?_, fun n => ?_⟩
  · rw [unregisterPlugin, foldl_unregStep_ownership]
    simp only [ownershipHit_eq_lookupA hnd]
  · rw [unregisterPlugin, foldl_unregStep_commands owner _ _ _ hwf]
    simp only [ownershipHit_eq_lookupA hnd]
  · rw [unregisterPlugin, foldl_unregStep_tools owner _ _ _ hwf]
    simp only [ownershipHit_eq_lookupA hnd]
  · rw [unregisterPlugin, foldl_unregStep_themes owner _ _ _ hwf]
    simp only [ownershipHit_eq_lookupA hnd]
  · rw [unregisterPlugin, foldl_unregStep_extensions owner _ _ _ hwf]
    simp only [ownershipHit_eq_lookupA hnd]

/-- Witness for the amended C5 at a concrete registry: revoking `p1` removes
exactly its own command and leaves `p2`'s command and ownership intact. -/
theorem unregisterPlugin_revokes_exactly_owned_witness :
    lookupA (unregisterPlugin wReg "p1").commands "a" = none ∧
    lookupA (unregisterPlugin wReg "p1").commands "b"
      = some { name := "b", description := "other" } ∧
    lookupA (unregisterPlugin wReg "p1").pluginOwnership "command:a" = none ∧
    lookupA (unregisterPlugin wReg "p1").pluginOwnership "command:b"
      = some "p2" := by
  have h := unregisterPlugin_revokes_exactly_owned wReg "p1" (by decide)
    (by decide)
  refine ⟨?_, ?_, ?_, ?_⟩
  · rw [h.2.1 "a"]; decide
  · rw [h.2.1 "b"]; decide
  · rw [h.1 "command:a"]; decide
  · rw [h.1 "command:b"]; decide

/-! ## Claim C6 -/

/-- Claim C6: for every loaded plugin with non-throwing hooks and a writable
enabled-set file, `disablePlugin` then `enablePlugin` both return `true`; after
the disable the name is out of the enabled set, after the enable it is back in,
and neither call changes the instance map, the context map, or any capability
or ownership entry of the registry. -/
theorem disable_enable_roundtrip
    (s : ManagerState) (fsS : FSState) (name : String) (p : GeminiPlugin)
    (hp : lookupA s.plugins name = some p)
    (hd : hookBenign p.onDisable = true)
    (he : hookBenign p.onEnable = true)
    (hw : fsS.writeError = none) :
    ∃ s1 fs1 s2 fs2,
      disablePlugin s fsS name = .ok (true, s1, fs1) ∧
      enablePlugin s1 fs1 name = .ok (true, s2, fs2) ∧
      containsS s1.enabledPlugins name = false ∧
      containsS s2.enabledPlugins name = true ∧
      s1.plugins = s.plugins ∧ s2.plugins = s.plugins ∧
      s1.pluginContexts = s.pluginContexts ∧
      s2.pluginContexts = s.pluginContexts ∧
      s1.registry = s.registry ∧ s2.registry = s.registry := by
  refine ⟨{ s with enabledPlugins := deleteS s.enabledPlugins name },
    { fsS with enabledFile := .parsed (some (deleteS s.enabledPlugins name)) },
    { s with enabledPlugins := addS (deleteS s.enabledPlugins name) name },
    { fsS with enabledFile :=
        .parsed (some (addS (deleteS s.enabledPlugins name) name)) },
    ?_, ?_, containsS_deleteS _ _, containsS_addS_self _ _,
    rfl, rfl, rfl, rfl, rfl, rfl⟩
  · rcases hod : p.onDisable with _ | hr
    · simp [disablePlugin, hp, hod, saveEnabledPlugins, hw]
    · cases hr
      · simp [disablePlugin, hp, hod, saveEnabledPlugins, hw]
      · rw [hod] at hd; simp [hookBenign] at hd
  · rcases hoe : p.onEnable with _ | hr
    · simp [enablePlugin, hp, hoe, saveEnabledPlugins, hw]
    · cases hr
      · simp [enablePlugin, hp, hoe, saveEnabledPlugins, hw]
      · rw [hoe] at he; simp [hookBenign] at he

/-- Witness for C6 at a concrete loaded plugin. -/
theorem disable_enable_roundtrip_witness :
    ∃ s1 fs1 s2 fs2,
      disablePlugin rtState rtFs "r" = .ok (true, s1, fs1) ∧
      enablePlugin s1 fs1 "r" = .ok (true, s2, fs2) ∧
      containsS s1.enabledPlugins "r" = false ∧
      containsS s2.enabledPlugins "r" = true ∧
      s1.plugins = rtState.plugins ∧ s2.plugins = rtState.plugins ∧
      s1.pluginContexts = rtState.pluginContexts ∧
      s2.pluginContexts = rtState.pluginContexts ∧
      s1.registry = rtState.registry ∧ s2.registry = rtState.registry :=
  disable_enable_roundtrip rtState rtFs "r" rtPlugin (by decide) (by decide)
    (by decide) rfl

/-! ## Claim C7 -/

/-- Claim C7: for every name not present in the loaded-instance map,
`enablePlugin` returns `false` and leaves both the in-memory enabled set and
the persisted file unchanged (no write occurs). -/
theorem enable_unloaded_returns_false
    (s : ManagerState) (fsS : FSState) (name : String)
    (h : lookupA s.plugins name = none) :
    enablePlugin s fsS name = .ok (false, s, fsS) := by
  simp [enablePlugin, h]

/-- Witness for C7 at a concrete empty manager state. -/
theorem enable_unloaded_returns_false_witness :
    enablePlugin emptyState emptyFs "ghost" = .ok (false, emptyState, emptyFs) :=
  enable_unloaded_returns_false emptyState emptyFs "ghost" rfl

/-! ## Claim C8 -/

/-- Claim C8: reading the enabled set never raises to the caller; with the
constructor's initial empty set, a missing or unparsable `enabled.json` yields
the empty set, and a second read without an intervening write returns the same
set as the first. -/
theorem loadEnabledPlugins_fails_soft :
    (∀ fsS : FSState, ∃ en, loadEnabledPlugins fsS [] = .ok en) ∧
    (∀ fsS : FSState, fsS.enabledFile = .missing →
      loadEnabledPlugins fsS [] = .ok []) ∧
    (∀ (fsS : FSState) (m : String), fsS.enabledFile = .unparsable m →
      loadEnabledPlugins fsS [] = .ok []) ∧
    (∀ (fsS : FSState) (en : List String), loadEnabledPlugins fsS [] = .ok en →
      loadEnabledPlugins fsS en = .ok en) := by
  refine ⟨?_, ?_, ?_, ?_⟩
  · intro fsS
    rcases h : fsS.enabledFile with _ | m | ps <;> simp [loadEnabledPlugins, h]
  · intro fsS h; simp [loadEnabledPlugins, h]
  · intro fsS m h; simp [loadEnabledPlugins, h]
  · intro fsS en h
    rcases hf : fsS.enabledFile with _ | m | ps <;>
      simp [loadEnabledPlugins, hf] at h ⊢ <;> exact h

/-- Witness for C8: a concrete corrupt file yields the empty set, and a second
read of a parsed file (with duplicates collapsed) returns the first read's
set. -/
theorem loadEnabledPlugins_fails_soft_witness :
    loadEnabledPlugins { enabledFile := .unparsable "bad json" } [] = .ok [] ∧
    loadEnabledPlugins { enabledFile := .parsed (some ["a", "a", "b"]) }
      ["a", "b"] = .ok ["a", "b"] := by
  constructor
  · exact loadEnabledPlugins_fails_soft.2.2.1 _ "bad json" rfl
  · exact loadEnabledPlugins_fails_soft.2.2.2 _ ["a", "b"] rfl

/-! ## Claim C9 -/

/-- Claim C9: when `loadPlugin` proceeds past instantiation and then a
capability-registration hook throws (first conjunct) or — with all
registration hooks completing — `onEnable` of an enabled plugin throws (second
conjunct), the load returns a failed result, yet the instance and its context
stay stored in the in-memory maps and every capability registered before the
exception stays in the registry: the load is not atomic on failure. -/
theorem loadPlugin_failure_not_atomic
    (disk : PluginDisk) (s : ManagerState) (name : String)
    (md : PluginMetadata) (exports : List (String × PluginClass))
    (cls : PluginClass)
    (h1 : disk.dirExists = true)
    (h2 : disk.packageJson = some (.ok md))
    (h3 : validatePluginMetadata md = true)
    (h4 : disk.entryPointExists = true)
    (h5 : disk.importResult = .ok exports)
    (h6 : resolvePluginClass exports md.name = some cls)
    (h7 : interfaceOk (cls (mkPluginContext s disk name)) md = true) :
    (∀ (acts : List CommandRegAction) (m : String),
      (cls (mkPluginContext s disk name)).registerCommands
        = some { actions := acts, outcome := .throws m } →
      loadPlugin disk s name =
        (loadFailure name m,
         { s with
           plugins := setA s.plugins name (cls (mkPluginContext s disk name)),
           pluginContexts :=
             setA s.pluginContexts name (mkPluginContext s disk name),
           registry := acts.foldl applyCommandAction s.registry })) ∧
    (∀ m : String,
      (registerPluginCapabilities s.registry
        (cls (mkPluginContext s disk name))).2 = none →
      containsS s.enabledPlugins name = true →
      (cls (mkPluginContext s disk name)).onEnable = some (.throws m) →
      loadPlugin disk s name =
        (loadFailure name m,
         { s with
           plugins := setA s.plugins name (cls (mkPluginContext s disk name)),
           pluginContexts :=
             setA s.pluginContexts name (mkPluginContext s disk name),
           registry := (registerPluginCapabilities s.registry
             (cls (mkPluginContext s disk name))).1 })) := by
  constructor
  · intro acts m h8
    have hreg : registerPluginCapabilities s.registry
        (cls (mkPluginContext s disk name)) =
        (acts.foldl applyCommandAction s.registry, some m) := by
      simp [registerPluginCapabilities, runRegHook, h8]
    simp [loadPlugin, h1, h2, h3, h4, h5, h6, h7, hreg]
  · intro m h8 h9 h10
    simp [loadPlugin, h1, h2, h3, h4, h5, h6, h7, h8, h9, h10]

/-- Witness for C9: the concrete plugin `t` registers `t-cmd` and then its
registration hook throws; the load fails but the instance, context and the
already-registered command survive. -/
theorem loadPlugin_failure_not_atomic_witness :
    loadPlugin tDisk tState "t" =
      (loadFailure "t" "boom",
       { tState with
         plugins := setA tState.plugins "t" tPlugin,
         pluginContexts :=
           setA tState.pluginContexts "t" (mkPluginContext tState tDisk "t"),
         registry :=
           [CommandRegAction.register tCmd].foldl applyCommandAction
             tState.registry }) := by
  have h := loadPlugin_failure_not_atomic tDisk tState "t" tMd
    [("default", fun _ => tPlugin)] (fun _ => tPlugin)
    rfl rfl (by decide) rfl rfl rfl (by decide)
  exact h.1 [.register tCmd] "boom" rfl

/-! ## Claim C10 -/

/-- Claim C10: uninstalling a name with no in-memory instance still returns
`true`: the `onUninstall` hook is skipped, the name is removed from the enabled
set, the change is persisted, and filesystem removal is delegated to the
installer — being loaded is not a precondition of uninstall. -/
theorem uninstall_without_loaded_instance
    (s : ManagerState) (fsS : FSState) (name : String)
    (hnp : lookupA s.plugins name = none)
    (hw : fsS.writeError = none) :
    uninstallPlugin s fsS name =
      { ret := true,
        state := { s with
          registry := unregisterPlugin s.registry name,
          plugins := deleteA s.plugins name,
          pluginContexts := deleteA s.pluginContexts name,
          enabledPlugins := deleteS s.enabledPlugins name },
        fsS := { fsS with
          enabledFile := .parsed (some (deleteS s.enabledPlugins name)) },
        hookInvoked := false, installerInvoked := true } ∧
    containsS (deleteS s.enabledPlugins name) name = false := by
  constructor
  · simp [uninstallPlugin, hnp, uninstallCleanup, saveEnabledPlugins, hw]
  · exact containsS_deleteS _ _

/-- Witness for C10 at a concrete never-loaded name. -/
theorem uninstall_without_loaded_instance_witness :
    uninstallPlugin gState gFs "g" =
      { ret := true,
        state := { gState with
          registry := unregisterPlugin gState.registry "g",
          plugins := deleteA gState.plugins "g",
          pluginContexts := deleteA gState.pluginContexts "g",
          enabledPlugins := deleteS gState.enabledPlugins "g" },
        fsS := { gFs with
          enabledFile := .parsed (some (deleteS gState.enabledPlugins "g")) },
        hookInvoked := false, installerInvoked := true } ∧
    containsS (deleteS gState.enabledPlugins "g") "g" = false :=
  uninstall_without_loaded_instance gState gFs "g" rfl rfl
